import Mathlib

/-!
Shallow embedding of the `group-tms` backing-event pipeline.

Source files embedded:
  - `src/clients/lbp_indexer.py` (`CirclesBackingHandler`):
    `fetch_backing_completed_events`, `process_backing_completed_events`,
    `trust_batch_with_Conditions`, and the body of one iteration of
    `run_event_processor`.
  - `src/clients/screening.py` (`ScreeningClient.check_blacklist`).

External collaborators (the JSON-RPC node, the screening REST service and
the web3 library) are modelled as explicit inputs: the query response and
the screening response are `Option`-valued (with `none` standing for a
request failure), `web3.to_checksum_address` is an arbitrary
`String → Option String` (with `none` standing for the exception it raises
on malformed input), and the build/sign/send/wait-for-receipt sequence is
an `Except String Receipt` describing its outcome.
-/

namespace GroupTMS

/-- One row of the `circles_query` response table, with the four requested
columns `backer`, `circlesBackingInstance`, `blockNumber`,
`transactionHash`, before any normalization by the handler. -/
structure RawRow where
  backer : String
  circlesBackingInstance : String
  blockNumber : Int
  transactionHash : String
deriving DecidableEq, Repr

/-- The parsed event dict built by `fetch_backing_completed_events` for one
row: backer and instance lowercased, and
`event_id = f"{tx_hash}_{backer}_{instance}"`. -/
structure BackingEvent where
  event_id : String
  backer : String
  instance_addr : String
  blockNumber : Int
  transactionHash : String
deriving DecidableEq, Repr

/-- One verdict object of the screening response. -/
structure Verdict where
  address : String
  is_bot : Bool
  category : String
deriving DecidableEq, Repr

/-- A transaction receipt, modelled as the key/value pairs of the Python
dict (`dict(receipt)`); only integer values are relevant here. -/
abbrev Receipt := List (String × Nat)

/-- Python's `str.lower()`: lowercase every character. -/
def str_lower (s : String) : String := ⟨s.data.map Char.toLower⟩

/-- The body of the row loop of `fetch_backing_completed_events`
(src/clients/lbp_indexer.py lines 107-123): lowercase `backer` and
`instance`, keep `blockNumber` and `transactionHash`, and derive
`event_id`. -/
def parseRow (row : RawRow) : BackingEvent :=
  let backer := str_lower row.backer
  let inst := str_lower row.circlesBackingInstance
  { event_id := row.transactionHash ++ "_" ++ backer ++ "_" ++ inst
    backer := backer
    instance_addr := inst
    blockNumber := row.blockNumber
    transactionHash := row.transactionHash }

/-- `CirclesBackingHandler.fetch_backing_completed_events`.  The issued
query carries no block-range filter (the two `blockNumber` filter
predicates in the source are commented out and `from_block` / `to_block`
are never read), so the response `rows` are whatever the node returns for
the emitter filter.  Every row is parsed and kept unless its `event_id` is
already in `self.processed_events`; any transport/parse failure (`resp =
none`) degrades to the empty list. -/
def fetch_backing_completed_events (processed : Finset String)
    (from_block to_block : Int) (resp : Option (List RawRow)) :
    List BackingEvent :=
  match resp with
  | none => []
  | some rows =>
      (rows.map parseRow).filter (fun e => e.event_id ∉ processed)

/-- `ScreeningClient.check_blacklist` (src/clients/screening.py lines
24-31).  A request failure makes `_make_request` return `{}`, hence
`verdicts = []` and the result is `[]`; otherwise the result is the
verbatim `address` string of every verdict with `is_bot` or `category` in
`["blocked", "flagged"]`.  The `addresses` argument only forms the request
payload and does not influence the returned list. -/
def check_blacklist (addresses : List String)
    (resp : Option (List Verdict)) : List String :=
  match resp with
  | none => []
  | some verdicts =>
      (verdicts.filter
        (fun v => v.is_bot || v.category = "blocked" || v.category = "flagged")).map
        (fun v => v.address)

/-- The screening step of `process_backing_completed_events` (lines
149-154): if `blacklisted` is non-empty, keep the backers not literally in
it; otherwise keep all backers. -/
def valid_backers (backer_addresses blacklisted : List String) :
    List String :=
  if blacklisted ≠ [] then
    backer_addresses.filter (fun addr => addr ∉ blacklisted)
  else
    backer_addresses

/-- The success test of line 172: `receipt and receipt.get('status') == 1`
(a Python dict is truthy iff non-empty). -/
def receipt_success (r : Receipt) : Bool :=
  decide (r ≠ []) && decide (r.lookup "status" = some 1)

/-- `CirclesBackingHandler.trust_batch_with_Conditions` (lines 182-219).
Raises `ValueError("No addresses provided for trust batch")` on an empty
list; otherwise the outcome is that of the external
build/sign/send/wait-for-receipt sequence, given by `chain`.  Every
exception is caught and re-raised as
`Exception(f"Trust batch transaction failed: {str(e)}")`. -/
def trust_batch_with_Conditions (addresses : List String)
    (chain : Except String Receipt) : Except String Receipt :=
  if addresses = [] then
    Except.error ("Trust batch transaction failed: " ++
      "No addresses provided for trust batch")
  else
    match chain with
    | Except.ok r => Except.ok r
    | Except.error e =>
        Except.error ("Trust batch transaction failed: " ++ e)

/-- The comprehension of line 164,
`[str(self.web3.to_checksum_address(backer)) for backer in valid_backers]`:
apply `toChecksum` to every element, propagating the exception (`none`)
that `web3.to_checksum_address` raises on a malformed address. -/
def checksum_backers (toChecksum : String → Option String) :
    List String → Option (List String)
  | [] => some []
  | a :: as =>
      match toChecksum a, checksum_backers toChecksum as with
      | some c, some cs => some (c :: cs)
      | _, _ => none

/-- Result of one call to `process_backing_completed_events`: the value of
`self.processed_events` afterwards, and the address list passed to
`trust_batch_with_Conditions` when the submission step was reached
(`none` when it was not). -/
structure CycleResult where
  processed : Finset String
  batch : Option (List String)
deriving DecidableEq

/-- `CirclesBackingHandler.process_backing_completed_events` (lines
130-180).  Returns `none` when an unhandled exception escapes the method —
which happens exactly when `web3.to_checksum_address` (modelled by
`toChecksum`) raises on some valid backer, since that call sits outside
the `try` block and nothing earlier both mutates state and raises.
Submission failures (exception from `trust_batch_with_Conditions` or a
receipt that does not pass `receipt_success`) are caught and leave
`processed_events` unchanged. -/
def process_backing_completed_events (processed : Finset String)
    (from_block to_block : Int) (queryResp : Option (List RawRow))
    (screenResp : Option (List Verdict))
    (toChecksum : String → Option String)
    (chain : Except String Receipt) : Option CycleResult :=
  let events := fetch_backing_completed_events processed from_block to_block queryResp
  if events = [] then
    some ⟨processed, none⟩
  else
    let backer_addresses := events.map (fun e => e.backer)
    let blacklisted := check_blacklist backer_addresses screenResp
    let valid := valid_backers backer_addresses blacklisted
    if valid = [] then
      some ⟨processed ∪ (events.map (fun e => e.event_id)).toFinset, none⟩
    else
      match checksum_backers toChecksum valid with
      | none => none
      | some cs =>
          match trust_batch_with_Conditions cs chain with
          | Except.error _ => some ⟨processed, some cs⟩
          | Except.ok r =>
              if receipt_success r then
                some ⟨processed ∪ (events.map (fun e => e.event_id)).toFinset,
                  some cs⟩
              else
                some ⟨processed, some cs⟩

/-- The mutable state of `run_event_processor`: the cursor
`latest_processed_block` and the handler's `processed_events` set. -/
structure LoopState where
  cursor : Int
  processed : Finset String
deriving DecidableEq

/-- One iteration of the `while True` loop of `run_event_processor` (lines
228-240), given the observed `current_block` and the cycle's external
inputs.  If processing raises, the `except` at the top of the loop catches
it and `latest_processed_block = current_block` is never executed, so the
state is left as it was. -/
def runCycle (st : LoopState) (current_block : Int)
    (queryResp : Option (List RawRow)) (screenResp : Option (List Verdict))
    (toChecksum : String → Option String)
    (chain : Except String Receipt) : LoopState :=
  if current_block > st.cursor then
    match process_backing_completed_events st.processed (st.cursor + 1)
        current_block queryResp screenResp toChecksum chain with
    | some res => { cursor := current_block, processed := res.processed }
    | none => st
  else
    st

/-- The `event_id` set of the events fetched for a cycle. -/
def fetched_ids (processed : Finset String) (from_block to_block : Int)
    (resp : Option (List RawRow)) : Finset String :=
  ((fetch_backing_completed_events processed from_block to_block resp).map
    (fun e => e.event_id)).toFinset

/-- The post-screening valid backer list of a cycle, as computed by
`process_backing_completed_events`. -/
def cycle_valid (processed : Finset String) (from_block to_block : Int)
    (queryResp : Option (List RawRow))
    (screenResp : Option (List Verdict)) : List String :=
  let backers := (fetch_backing_completed_events processed from_block
    to_block queryResp).map (fun e => e.backer)
  valid_backers backers (check_blacklist backers screenResp)

/-- The submission is confirmed when the external transaction sequence
yields a receipt that passes `receipt_success`. -/
def submission_confirmed (chain : Except String Receipt) : Prop :=
  ∃ r, chain = Except.ok r ∧ receipt_success r = true

/-! ## Helper lemmas -/

theorem cycle_valid_eq (processed : Finset String) (fb tb : Int)
    (q : Option (List RawRow)) (s : Option (List Verdict)) :
    cycle_valid processed fb tb q s =
      valid_backers
        ((fetch_backing_completed_events processed fb tb q).map (fun e => e.backer))
        (check_blacklist
          ((fetch_backing_completed_events processed fb tb q).map (fun e => e.backer)) s) :=
  rfl

theorem fetched_ids_eq (processed : Finset String) (fb tb : Int)
    (q : Option (List RawRow)) :
    fetched_ids processed fb tb q =
      ((fetch_backing_completed_events processed fb tb q).map
        (fun e => e.event_id)).toFinset :=
  rfl

theorem fetch_event_id_not_processed {processed : Finset String}
    {fb tb : Int} {resp : Option (List RawRow)} {e : BackingEvent}
    (he : e ∈ fetch_backing_completed_events processed fb tb resp) :
    e.event_id ∉ processed := by
  cases resp with
  | none => simp [fetch_backing_completed_events] at he
  | some rows =>
      simp only [fetch_backing_completed_events] at he
      have h := (List.mem_filter.mp he).2
      exact of_decide_eq_true h

theorem union_fetched_ne (processed : Finset String) (fb tb : Int)
    (q : Option (List RawRow))
    (hev : fetch_backing_completed_events processed fb tb q ≠ []) :
    processed ∪ fetched_ids processed fb tb q ≠ processed := by
  obtain ⟨e, he⟩ := List.exists_mem_of_ne_nil _ hev
  have hid : e.event_id ∈ fetched_ids processed fb tb q := by
    rw [fetched_ids_eq]
    simp only [List.mem_toFinset, List.mem_map]
    exact ⟨e, he, rfl⟩
  intro hcon
  exact fetch_event_id_not_processed he
    (hcon ▸ Finset.mem_union_right processed hid)

theorem checksum_backers_ne_nil {tc : String → Option String}
    {l cs : List String} (hl : l ≠ [])
    (h : checksum_backers tc l = some cs) : cs ≠ [] := by
  cases l with
  | nil => exact absurd rfl hl
  | cons a as =>
      simp only [checksum_backers] at h
      cases hta : tc a with
      | none => rw [hta] at h; simp at h
      | some b =>
          rw [hta] at h
          cases hrec : checksum_backers tc as with
          | none => rw [hrec] at h; simp at h
          | some bs =>
              rw [hrec] at h
              injection h with h2
              rw [← h2]
              simp

theorem trust_batch_ok {addresses : List String}
    {chain : Except String Receipt} {r : Receipt}
    (h : trust_batch_with_Conditions addresses chain = Except.ok r) :
    chain = Except.ok r := by
  unfold trust_batch_with_Conditions at h
  by_cases ha : addresses = []
  · rw [if_pos ha] at h
    exact absurd h (by simp)
  · rw [if_neg ha] at h
    cases chain with
    | ok r' =>
        simp only [] at h
        injection h with h2
        rw [h2]
    | error m =>
        simp only [] at h
        exact absurd h (by simp)

/-! ## Claim theorems -/

/-- Claim C4, evaluation at the failing input: `fetch_backing_completed_events`
called for the range 10..20 returns an event whose block number is 5,
because the two block-range filter predicates of the query are commented
out in the source and `from_block` / `to_block` are never read.  The claim
that every returned event lies in the requested range is violated by the
code. -/
theorem C4_range_ignored :
    fetch_backing_completed_events ∅ 10 20
        (some [⟨"0xdd", "0xee", 5, "t4"⟩]) =
      [{ event_id := "t4_0xdd_0xee", backer := "0xdd", instance_addr := "0xee",
         blockNumber := 5, transactionHash := "t4" }] ∧
    ¬((10 : Int) ≤ 5 ∧ (5 : Int) ≤ 20) :=
  ⟨by decide, by decide⟩

/-- Claim C5, counterexample: a query response row parses to an event, yet
`fetch_backing_completed_events` drops it because its `event_id` is
already in `processed_events` — the fetch does deduplicate on its own
(line 116 of src/clients/lbp_indexer.py), contrary to the claim that every
parsed row is returned. -/
theorem C5_counterexample :
    [(⟨"0xD5", "0xE5", 3, "t5"⟩ : RawRow)].map parseRow ≠ [] ∧
    fetch_backing_completed_events (insert "t5_0xd5_0xe5" ∅) 1 10
      (some [⟨"0xD5", "0xE5", 3, "t5"⟩]) = [] :=
  ⟨by decide, by decide⟩

/-- Claim C5 as amended: `fetch_backing_completed_events` itself performs
the deduplication — an event is returned iff it is the parse of some
response row and its `event_id` is not yet in the processed set. -/
theorem C5_fetch_dedups (processed : Finset String) (fb tb : Int)
    (rows : List RawRow) (e : BackingEvent) :
    e ∈ fetch_backing_completed_events processed fb tb (some rows) ↔
      ((∃ row ∈ rows, parseRow row = e) ∧ e.event_id ∉ processed) := by
  simp only [fetch_backing_completed_events, List.mem_filter, List.mem_map,
    decide_not, Bool.not_eq_eq_eq_not, Bool.not_true, decide_eq_false_iff_not]

/-- Claim C7: when the screening request fails (`_make_request` catches the
`RequestException` and returns `{}`), `check_blacklist` returns the empty
list, and the cycle's valid backer list equals the full candidate list —
screening errors never block processing. -/
theorem C7_fail_open (addresses : List String) (processed : Finset String)
    (fb tb : Int) (q : Option (List RawRow)) :
    check_blacklist addresses none = [] ∧
    cycle_valid processed fb tb q none =
      (fetch_backing_completed_events processed fb tb q).map
        (fun e => e.backer) :=
  ⟨rfl, rfl⟩

/-- Claim C8: `trust_batch_with_Conditions` with an empty address list
fails with the wrapped `ValueError("No addresses provided for trust
batch")` no matter what the external transaction machinery would do — the
outcome is the same for every `chain`, so no transaction is built or
submitted. -/
theorem C8_empty_batch_rejected (chain : Except String Receipt) :
    trust_batch_with_Conditions [] chain =
      Except.error
        "Trust batch transaction failed: No addresses provided for trust batch" :=
  rfl

/-- Claim C10: every failure of `trust_batch_with_Conditions` — the
empty-list rejection included — surfaces as the single generic exception
whose message starts with `Trust batch transaction failed: `; the cause is
only visible in the appended text. -/
theorem C10_generic_failure (addresses : List String)
    (chain : Except String Receipt) (e : String)
    (h : trust_batch_with_Conditions addresses chain = Except.error e) :
    ∃ rest, e = "Trust batch transaction failed: " ++ rest := by
  unfold trust_batch_with_Conditions at h
  by_cases ha : addresses = []
  · rw [if_pos ha] at h
    injection h with h2
    exact ⟨"No addresses provided for trust batch", h2.symm⟩
  · rw [if_neg ha] at h
    cases chain with
    | ok r =>
        simp only [] at h
        exact absurd h (by simp)
    | error m =>
        simp only [] at h
        injection h with h2
        exact ⟨m, h2.symm⟩

/-- Claim C10 witness: the empty-list rejection instantiates the theorem. -/
theorem C10_witness :
    ∃ rest,
      "Trust batch transaction failed: No addresses provided for trust batch" =
        "Trust batch transaction failed: " ++ rest :=
  C10_generic_failure [] (Except.ok []) _ rfl

/-- Claim C9: blacklist exclusion is exact case-sensitive string
comparison.  A flagged verdict address `f` that is not all-lowercase
(`str_lower f ≠ f`) cannot equal the lowercased backer string
`a = str_lower f`, so that backer survives screening (provided no other
verdict matches it verbatim) and stays in the valid backer list that feeds
the trust batch. -/
theorem C9_exact_string_exclusion (addresses backers : List String)
    (resp : Option (List Verdict)) (f a : String)
    (hf : f ∈ check_blacklist addresses resp)
    (hcase : str_lower f ≠ f)
    (ha : a = str_lower f)
    (hexact : a ∉ check_blacklist addresses resp)
    (hmem : a ∈ backers) :
    a ∈ valid_backers backers (check_blacklist addresses resp) := by
  unfold valid_backers
  rw [if_pos (List.ne_nil_of_mem hf)]
  rw [List.mem_filter]
  exact ⟨hmem, decide_eq_true hexact⟩

/-- Claim C9 witness: the checksum-cased flagged string `0xE2` does not
exclude the lowercase backer `0xe2`. -/
theorem C9_witness :
    "0xe2" ∈ valid_backers ["0xe2"]
      (check_blacklist ["0xe2"] (some [⟨"0xE2", true, "x"⟩])) :=
  C9_exact_string_exclusion ["0xe2"] ["0xe2"] (some [⟨"0xE2", true, "x"⟩])
    "0xE2" "0xe2" (by decide) (by decide) (by decide) (by decide) (by decide)

/-- A cycle for claim C1: one event with raw backer `0xAB` (parsed to
`0xab`), the screening service flags `0xAB` in checksum case, and the
checksum normalization maps `0xab` back to `0xAB`. -/
def c1_row : RawRow := ⟨"0xAB", "0xcc", 1, "t1"⟩

def c1_verdicts : List Verdict := [⟨"0xAB", true, "none"⟩]

def c1_checksum : String → Option String :=
  fun a => if a = "0xab" then some "0xAB" else some a

/-- Claim C1, counterexample: the screening client returns `0xAB` as
flagged, yet the very string `0xAB` is the sole element of the address
list passed to `trust_batch_with_Conditions` in the same cycle — the
lowercase backer `0xab` is not excluded by the exact comparison against
`0xAB`, and checksum normalization then reproduces the flagged string.  A
blacklisted address is trusted. -/
theorem C1_counterexample :
    check_blacklist ["0xab"] (some c1_verdicts) = ["0xAB"] ∧
    (process_backing_completed_events ∅ 1 1 (some [c1_row])
        (some c1_verdicts) c1_checksum
        (Except.ok [("status", 1)])).map CycleResult.batch =
      some (some ["0xAB"]) ∧
    "0xAB" ∈ ["0xAB"] :=
  ⟨by decide, by decide, by decide⟩

/-- Claim C1 as amended: exclusion does hold at the level on which the
code compares — no string returned as flagged by the screening client is
ever an element of the valid backer list of that cycle; only after
checksum re-casing can a flagged string reappear in the submitted batch. -/
theorem C1_flagged_not_in_valid (backers blacklisted : List String)
    (f : String) (hf : f ∈ blacklisted) :
    f ∉ valid_backers backers blacklisted := by
  intro hmem
  unfold valid_backers at hmem
  rw [if_pos (List.ne_nil_of_mem hf)] at hmem
  exact of_decide_eq_true (List.mem_filter.mp hmem).2 hf

/-- Claim C1 witness for the amended statement. -/
theorem C1_witness : "0xF1" ∉ valid_backers ["0xf1"] ["0xF1"] :=
  C1_flagged_not_in_valid ["0xf1"] ["0xF1"] "0xF1" (by decide)

/-- Claim C3, counterexample: the chain height 5 exceeds the cursor 0, but
`web3.to_checksum_address` raises during the cycle (modelled by a
`toChecksum` that returns `none`), the exception escapes
`process_backing_completed_events`, and the loop's `except` clause skips
the cursor assignment — the cursor stays 0 instead of advancing to 5. -/
theorem C3_counterexample :
    (5 : Int) > 0 ∧
    (runCycle ⟨0, ∅⟩ 5 (some [⟨"0xAB", "0xcc", 1, "t1"⟩]) none
      (fun _ => none) (Except.ok [("status", 1)])).cursor = 0 :=
  ⟨by decide, by decide⟩

/-- Claim C3 as amended: the cursor never decreases, and whenever the
observed chain height exceeds the cursor and the processing step completes
without an unhandled exception — which covers every submission outcome,
since submission failures are caught inside
`process_backing_completed_events` — the cursor advances to the observed
height. -/
theorem C3_cursor_monotone (st : LoopState) (current_block : Int)
    (q : Option (List RawRow)) (s : Option (List Verdict))
    (tc : String → Option String) (chain : Except String Receipt) :
    st.cursor ≤ (runCycle st current_block q s tc chain).cursor ∧
    ((current_block > st.cursor ∧
        process_backing_completed_events st.processed (st.cursor + 1)
          current_block q s tc chain ≠ none) →
      (runCycle st current_block q s tc chain).cursor = current_block) := by
  unfold runCycle
  by_cases h : current_block > st.cursor
  · rw [if_pos h]
    cases hp : process_backing_completed_events st.processed (st.cursor + 1)
        current_block q s tc chain with
    | some res => exact ⟨le_of_lt h, fun _ => rfl⟩
    | none => exact ⟨le_refl _, fun hc => absurd rfl hc.2⟩
  · rw [if_neg h]
    exact ⟨le_refl _, fun hc => absurd hc.1 h⟩

/-- Claim C3 witness: a no-event cycle advances the cursor from 0 to the
observed height 1. -/
theorem C3_witness :
    (0 : Int) ≤ (runCycle ⟨0, ∅⟩ 1 none none (fun a => some a)
      (Except.ok [])).cursor ∧
    (runCycle ⟨0, ∅⟩ 1 none none (fun a => some a)
      (Except.ok [])).cursor = 1 := by
  have h := C3_cursor_monotone ⟨0, ∅⟩ 1 none none (fun a => some a)
    (Except.ok [])
  exact ⟨h.1, h.2 ⟨by decide, by decide⟩⟩

/-- Claim C2: in a cycle with fetched events whose processing completes
without an unhandled exception, the processed set becomes the old set plus
all fetched event ids exactly when the post-screening valid list is empty
or the submission is confirmed with `status == 1`; in every other outcome
(submission exception or bad receipt status) the processed set is
unchanged. -/
theorem C2_processed_iff (processed : Finset String) (fb tb : Int)
    (q : Option (List RawRow)) (s : Option (List Verdict))
    (tc : String → Option String) (chain : Except String Receipt)
    (res : CycleResult)
    (hev : fetch_backing_completed_events processed fb tb q ≠ [])
    (hres : process_backing_completed_events processed fb tb q s tc chain =
      some res) :
    (res.processed = processed ∪ fetched_ids processed fb tb q ↔
      (cycle_valid processed fb tb q s = [] ∨ submission_confirmed chain)) ∧
    ((cycle_valid processed fb tb q s ≠ [] ∧ ¬ submission_confirmed chain) →
      res.processed = processed) := by
  have hne := union_fetched_ne processed fb tb q hev
  simp only [process_backing_completed_events] at hres
  rw [if_neg hev] at hres
  rw [← cycle_valid_eq processed fb tb q s,
    ← fetched_ids_eq processed fb tb q] at hres
  by_cases hval : cycle_valid processed fb tb q s = []
  · rw [if_pos hval] at hres
    injection hres with h2
    subst h2
    exact ⟨iff_of_true rfl (Or.inl hval), fun hc => absurd hval hc.1⟩
  · rw [if_neg hval] at hres
    split at hres
    · exact absurd hres (by simp)
    · rename_i cs hcs
      have hcs_ne : cs ≠ [] := checksum_backers_ne_nil hval hcs
      split at hres
      · rename_i e htb
        injection hres with h2
        subst h2
        have hnc : ¬ submission_confirmed chain := by
          rintro ⟨r, rfl, hr⟩
          rw [trust_batch_with_Conditions, if_neg hcs_ne] at htb
          simp at htb
        exact ⟨iff_of_false (fun h => hne h.symm)
          (fun hc => hc.elim hval hnc), fun _ => rfl⟩
      · rename_i r htb
        have hchain : chain = Except.ok r := trust_batch_ok htb
        by_cases hrs : receipt_success r = true
        · rw [if_pos hrs] at hres
          injection hres with h2
          subst h2
          have hsc : submission_confirmed chain := ⟨r, hchain, hrs⟩
          exact ⟨iff_of_true rfl (Or.inr hsc), fun hc => absurd hsc hc.2⟩
        · rw [if_neg hrs] at hres
          injection hres with h2
          subst h2
          have hnc : ¬ submission_confirmed chain := by
            rintro ⟨r', hr', hs'⟩
            rw [hchain] at hr'
            injection hr' with h3
            exact hrs (h3 ▸ hs')
          exact ⟨iff_of_false (fun h => hne h.symm)
            (fun hc => hc.elim hval hnc), fun _ => rfl⟩

/-- A cycle for claim C2's witness: one event, nothing flagged, identity
checksum, and a confirmed receipt. -/
def c2_row : RawRow := ⟨"0xB1", "0xC2", 7, "h7"⟩

/-- Claim C2 witness: on the confirmed-success cycle the fetched event id
is added to the processed set. -/
theorem C2_witness :
    (⟨insert "h7_0xb1_0xc2" ∅, some ["0xb1"]⟩ : CycleResult).processed =
      (∅ : Finset String) ∪ fetched_ids ∅ 1 1 (some [c2_row]) := by
  have h := C2_processed_iff ∅ 1 1 (some [c2_row]) none (fun a => some a)
    (Except.ok [("status", 1)]) ⟨insert "h7_0xb1_0xc2" ∅, some ["0xb1"]⟩
    (by decide) (by decide)
  exact h.1.mpr (Or.inr ⟨[("status", 1)], rfl, by decide⟩)

/-- Two events sharing the backer `0xaa` for claim C6. -/
def c6_rows : List RawRow :=
  [⟨"0xaa", "0xc1", 1, "t1"⟩, ⟨"0xaa", "0xc2", 2, "t2"⟩]

/-- Claim C6, counterexample: two fetched events share the backer `0xaa`;
the address list handed to `trust_batch_with_Conditions` is
`["0xaa", "0xaa"]` — no deduplication is performed anywhere on the valid
backer list. -/
theorem C6_counterexample :
    (process_backing_completed_events ∅ 1 2 (some c6_rows) none
        (fun a => some a) (Except.ok [("status", 1)])).map CycleResult.batch =
      some (some ["0xaa", "0xaa"]) ∧
    ¬ (["0xaa", "0xaa"] : List String).Nodup :=
  ⟨by decide, by decide⟩

/-- Claim C6 as amended: whenever a cycle reaches the submission step, the
address list it submits is exactly the in-order checksum image of the
post-screening valid backer list — one entry per fetched event's backer,
duplicates preserved. -/
theorem C6_batch_eq_checksums (processed : Finset String) (fb tb : Int)
    (q : Option (List RawRow)) (s : Option (List Verdict))
    (tc : String → Option String) (chain : Except String Receipt)
    (res : CycleResult) (l : List String)
    (hres : process_backing_completed_events processed fb tb q s tc chain =
      some res)
    (hb : res.batch = some l) :
    checksum_backers tc (cycle_valid processed fb tb q s) = some l := by
  simp only [process_backing_completed_events] at hres
  by_cases hev : fetch_backing_completed_events processed fb tb q = []
  · rw [if_pos hev] at hres
    injection hres with h2
    subst h2
    simp at hb
  · rw [if_neg hev] at hres
    rw [← cycle_valid_eq processed fb tb q s,
      ← fetched_ids_eq processed fb tb q] at hres
    by_cases hval : cycle_valid processed fb tb q s = []
    · rw [if_pos hval] at hres
      injection hres with h2
      subst h2
      simp at hb
    · rw [if_neg hval] at hres
      split at hres
      · exact absurd hres (by simp)
      · rename_i cs hcs
        split at hres
        · rename_i e htb
          injection hres with h2
          subst h2
          injection hb with h3
          rw [← h3]
          exact hcs
        · rename_i r htb
          by_cases hrs : receipt_success r = true
          · rw [if_pos hrs] at hres
            injection hres with h2
            subst h2
            injection hb with h3
            rw [← h3]
            exact hcs
          · rw [if_neg hrs] at hres
            injection hres with h2
            subst h2
            injection hb with h3
            rw [← h3]
            exact hcs

/-- Claim C6 witness for the amended statement, on the duplicate-backer
cycle. -/
theorem C6_witness :
    checksum_backers (fun a => some a)
      (cycle_valid ∅ 1 2 (some c6_rows) none) = some ["0xaa", "0xaa"] :=
  C6_batch_eq_checksums ∅ 1 2 (some c6_rows) none (fun a => some a)
    (Except.error "broadcast refused") ⟨∅, some ["0xaa", "0xaa"]⟩
    ["0xaa", "0xaa"] (by decide) rfl

end GroupTMS
